import Mathlib

/-!
# Verification of the VTR NoC topology builder and SAT router

This file gives a shallow embedding of the NoC (network-on-chip) setup code
(`vpr/src/base/setup_noc.cpp`) and of the constraint-programming router
(`vpr/src/noc/sat_routing.cpp`), and proves or refutes the specified
properties of that code.

Modelling conventions:
* Router ids, link ids and traffic-flow ids are `Nat`.
* C++ `double` quantities (bandwidths, latencies, tile centroids) are
  modelled as `ℚ`; machine integers are `Int`/`Nat` (no overflow is
  relevant at the sizes the code handles).
* A solver assignment is a function from boolean-variable keys to `Bool`
  (for the per-flow embedding, a `flow_link` variable is keyed by its link
  id) together with integer values for integer variables.  Constraints
  added through the or-tools `CpModelBuilder` are embedded as data
  (`SatConstraint`) plus a satisfaction predicate, so that "feasible
  assignment" means "assignment satisfying every embedded constraint".
-/

/-- A directed NoC link (`NocLink`): stable id, source and sink router. -/
structure NocLinkE where
  linkId : Nat
  sourceRouter : Nat
  sinkRouter : Nat
deriving DecidableEq, Repr

/-- The finalized NoC storage model restricted to what the router reads:
the list of routers (by id) and the list of directed links. -/
structure NocModelE where
  routers : List Nat
  links : List NocLinkE
deriving Repr

/-- `NocStorage::get_noc_router_outgoing_links`: ids of the links whose
source router is `r`, in storage order. -/
def outgoingLinkIds (m : NocModelE) (r : Nat) : List Nat :=
  (m.links.filter (fun l => l.sourceRouter == r)).map (fun l => l.linkId)

/-- `NocStorage::get_noc_router_incoming_links`: ids of the links whose
sink router is `r`, in storage order. -/
def incomingLinkIds (m : NocModelE) (r : Nat) : List Nat :=
  (m.links.filter (fun l => l.sinkRouter == r)).map (fun l => l.linkId)

/-- Source router of the link with id `lid` (`get_single_noc_link(l).get_source_router()`). -/
def modelLsrc (m : NocModelE) (lid : Nat) : Nat :=
  ((m.links.find? (fun l => l.linkId == lid)).map (fun l => l.sourceRouter)).getD 0

/-- Sink router of the link with id `lid` (`get_single_noc_link(l).get_sink_router()`). -/
def modelLdst (m : NocModelE) (lid : Nat) : Nat :=
  ((m.links.find? (fun l => l.linkId == lid)).map (fun l => l.sinkRouter)).getD 0

/-- The constraint shapes that `sat_routing.cpp` adds to the CP-SAT model
for a single traffic flow.  Variables are identified by the id of the NoC
link whose `flow_link` variable they are (the variable map created by
`create_flow_link_vars` holds a variable for every (flow, link) pair, so
`get_flow_link_vars` returns exactly the requested links' variables). -/
inductive SatConstraint where
  /-- `CpModelBuilder::AddExactlyOne` over the listed variables. -/
  | exactlyOne (vars : List Nat)
  /-- `CpModelBuilder::AddAtMostOne` over the listed variables. -/
  | atMostOne (vars : List Nat)
  /-- `AddEquality(Sum(lhs), Sum(rhs))`. -/
  | eqSum (lhs rhs : List Nat)
  /-- `AddEquality(Sum(pos) - Sum(neg), target)`. -/
  | eqDiff (pos neg : List Nat) (target : Int)
deriving DecidableEq, Repr

/-- Number of variables in `vars` that an assignment sets to true. -/
def countTrue (act : Nat → Bool) (vars : List Nat) : Nat :=
  (vars.filter act).length

/-- Satisfaction of one embedded constraint by a boolean assignment. -/
def constraintHolds (act : Nat → Bool) : SatConstraint → Prop
  | .exactlyOne vs => countTrue act vs = 1
  | .atMostOne vs => countTrue act vs ≤ 1
  | .eqSum vs ws => countTrue act vs = countTrue act ws
  | .eqDiff vs ws t => (countTrue act vs : Int) - (countTrue act ws : Int) = t

instance (act : Nat → Bool) (c : SatConstraint) : Decidable (constraintHolds act c) :=
  match c with
  | .exactlyOne vs => inferInstanceAs (Decidable (countTrue act vs = 1))
  | .atMostOne vs => inferInstanceAs (Decidable (countTrue act vs ≤ 1))
  | .eqSum vs ws => inferInstanceAs (Decidable (countTrue act vs = countTrue act ws))
  | .eqDiff vs ws t =>
      inferInstanceAs (Decidable ((countTrue act vs : Int) - (countTrue act ws : Int) = t))

/-- `add_continuity_constraints`, for one traffic flow whose source cluster
is placed on NoC router `srcRouter` and whose sink cluster is placed on
`sinkRouter`: exactly one outgoing link of the source, exactly one incoming
link of the sink, and for every other router at most one incoming link,
at most one outgoing link, and equal incoming/outgoing counts (the loop
`continue`s on the source and sink routers). -/
def addContinuityConstraints (m : NocModelE) (srcRouter sinkRouter : Nat) : List SatConstraint :=
  [.exactlyOne (outgoingLinkIds m srcRouter), .exactlyOne (incomingLinkIds m sinkRouter)] ++
    (m.routers.filter (fun r => !(r == srcRouter || r == sinkRouter))).flatMap
      (fun r => [.atMostOne (incomingLinkIds m r), .atMostOne (outgoingLinkIds m r),
        .eqSum (incomingLinkIds m r) (outgoingLinkIds m r)])

/-- The per-router cardinality conditions that the specification lists for
the continuity constraints of one traffic flow. -/
def ContinuityCardinalities (m : NocModelE) (srcRouter sinkRouter : Nat) (act : Nat → Bool) : Prop :=
  countTrue act (outgoingLinkIds m srcRouter) = 1 ∧
  countTrue act (incomingLinkIds m sinkRouter) = 1 ∧
  ∀ r ∈ m.routers, r ≠ srcRouter → r ≠ sinkRouter →
    countTrue act (incomingLinkIds m r) ≤ 1 ∧
    countTrue act (outgoingLinkIds m r) ≤ 1 ∧
    countTrue act (incomingLinkIds m r) = countTrue act (outgoingLinkIds m r)

/-! ## Bandwidth rescaling and congestion variables (`rescale_traffic_flow_bandwidths`, `create_congested_link_vars`) -/

/-- `rescale_traffic_flow_bandwidths`, one flow:
`(int)std::floor((bandwidth / link_bandwidth) * bandwidth_resolution)`. -/
def rescaleTrafficFlowBandwidth (bandwidth linkBandwidth : ℚ) (bandwidthResolution : Int) : Int :=
  ⌊bandwidth / linkBandwidth * (bandwidthResolution : ℚ)⌋

/-- The linear expression `lhs` built in `create_congested_link_vars` (and
`add_congestion_constraints`) for one link: starting from `0`, for each
traffic flow add `Term(binary_var, rescaled_bandwidth)`, i.e. the rescaled
bandwidth when the flow's variable on this link is set.  The same shape is
used for the aggregate-bandwidth objective expression `agg_bw_expr`, where
the items are (flow, link) pairs. -/
def weightedTermSum {α : Type} (coeff : α → Int) (items : List α) (act : α → Bool) : Int :=
  items.foldl (fun acc x => acc + coeff x * (if act x then 1 else 0)) 0

/-- Satisfaction of the two reified constraints added per link by
`create_congested_link_vars`:
`AddLessOrEqual(lhs, bandwidth_resolution).OnlyEnforceIf(congested.Not())` and
`AddGreaterThan(lhs, bandwidth_resolution).OnlyEnforceIf(congested)`.
An `OnlyEnforceIf` constraint is satisfied when the enforcement literal is
false, and otherwise behaves as the underlying linear constraint. -/
def congestedLinkVarSat (lhs bandwidthResolution : Int) (congested : Bool) : Prop :=
  (congested = false → lhs ≤ bandwidthResolution) ∧
  (congested = true → bandwidthResolution < lhs)

/-! ## Latency-overrun variables (`create_flow_link_vars`, `comp_max_number_of_traversed_links`, `constrain_latency_overrun_vars`) -/

/-- One traffic flow as read by the SAT formulator: user id, declared
maximum latency (`max_traffic_flow_latency`) and bandwidth demand. -/
structure TrafficFlowE where
  flowId : Nat
  maxLatency : ℚ
  bandwidth : ℚ
deriving DecidableEq, Repr

/-- The integer domain `Domain(0, 20)` given to every latency-overrun
variable in `create_flow_link_vars`. -/
def latencyOverrunDomain : Int × Int := (0, 20)

/-- `create_flow_link_vars`: for every traffic flow, an integer
latency-overrun variable with domain `latencyOverrunDomain` is created when
`traffic_flow.max_traffic_flow_latency < 0.1`, and a boolean variable is
created for every (flow, link) pair.  The result is the list of created
(flow, link) boolean-variable keys and the list of created overrun
variables with their domains, in creation order. -/
def createFlowLinkVars (flows : List TrafficFlowE) (linkIds : List Nat) :
    List (Nat × Nat) × List (Nat × (Int × Int)) :=
  flows.foldl
    (fun acc f =>
      let acc1 := if f.maxLatency < 1/10 then
          (acc.1, acc.2 ++ [(f.flowId, latencyOverrunDomain)])
        else acc
      (acc1.1 ++ linkIds.map (fun lid => (f.flowId, lid)), acc1.2))
    ([], [])

/-- The assertion guarding `comp_max_number_of_traversed_links`:
`VTR_ASSERT(traffic_flow_latency_constraint < 0.1)`. -/
def compMaxTraversedLinksAssert (maxLatency : ℚ) : Prop := maxLatency < 1/10

/-- `comp_max_number_of_traversed_links`:
`std::floor((latency_constraint - router_latency) / (link_latency + router_latency))`. -/
def compMaxNumberOfTraversedLinks (maxLatency nocLinkLatency nocRouterLatency : ℚ) : Int :=
  ⌊(maxLatency - nocRouterLatency) / (nocLinkLatency + nocRouterLatency)⌋

/-- Satisfaction of the constraint added by `constrain_latency_overrun_vars`
for one latency-constrained flow:
`AddMaxEquality(latency_overrun_var, {Sum(link_vars) - n_max_links, 0})`,
i.e. the overrun variable equals the maximum of the affine expression and 0.
`allLinkIds` is the full list of NoC link ids (the code requests the
variables of this flow on every link). -/
def latencyOverrunVarSat (act : Nat → Bool) (allLinkIds : List Nat)
    (nMaxLinks : Int) (overrunValue : Int) : Prop :=
  overrunValue = max ((countTrue act allLinkIds : Int) - nMaxLinks) 0

/-! ## Direction buckets and distance constraints (`group_noc_links_based_on_direction`, `add_distance_constraints`) -/

/-- `group_noc_links_based_on_direction`: every link is put in exactly one
of the `up`/`down`/`right`/`left` buckets from its endpoint physical
positions: vertical (equal x) links go up when the sink's y exceeds the
source's y, otherwise down; horizontal links go right when the sink's x
exceeds the source's x, otherwise left.  (`VTR_ASSERT` checks that every
link is axis-aligned; the classification itself only reads the two
endpoint coordinates.)  Buckets are returned as `(up, down, right, left)`. -/
def groupNocLinksBasedOnDirection (posX posY : Nat → Int) (links : List NocLinkE) :
    List Nat × List Nat × List Nat × List Nat :=
  links.foldl
    (fun acc l =>
      let (up, down, right, left) := acc
      if posX l.sourceRouter = posX l.sinkRouter then
        if posY l.sourceRouter < posY l.sinkRouter then (up ++ [l.linkId], down, right, left)
        else (up, down ++ [l.linkId], right, left)
      else
        if posX l.sourceRouter < posX l.sinkRouter then (up, down, right ++ [l.linkId], left)
        else (up, down, right, left ++ [l.linkId]))
    ([], [], [], [])

/-- `add_distance_constraints` for one traffic flow placed on routers
`srcRouter`/`dstRouter`: with buckets `(up, down, right, left)` from
`group_noc_links_based_on_direction`, add
`Sum(right_vars) - Sum(left_vars) = delta_x` and
`Sum(up_vars) - Sum(down_vars) = delta_y`, where the deltas are computed
from the compressed-grid locations (`get_compressed_loc`) of the two
routers, embedded here as the coordinate maps `compX`/`compY`. -/
def addDistanceConstraints (posX posY compX compY : Nat → Int) (links : List NocLinkE)
    (srcRouter dstRouter : Nat) : List SatConstraint :=
  let g := groupNocLinksBasedOnDirection posX posY links
  [.eqDiff g.2.2.1 g.2.2.2 (compX dstRouter - compX srcRouter),
   .eqDiff g.1 g.2.1 (compY dstRouter - compY srcRouter)]

/-! ## `setup_noc` tile-count validation -/

/-- The three fatal configuration errors that `setup_noc` can raise while
comparing the number of discovered physical router tiles with the number of
logical routers declared in the architecture description. -/
inductive SetupNocError where
  /-- "has more number of routers than what is available in the FPGA device" -/
  | tooFewPhysicalRouters
  /-- "uses less number of routers than what is available in the FPGA device" -/
  | tooManyPhysicalRouters
  /-- "No physical NoC routers were found on the FPGA device." -/
  | noPhysicalRouters
deriving DecidableEq, Repr

/-- The validation chain in `setup_noc`, in source order:
`if (tiles < routers) error; else if (tiles > routers) error;
else if (tiles == 0) error;` — returning the raised error, if any. -/
def validateNocTileCounts (numTiles numRouters : Nat) : Option SetupNocError :=
  if numTiles < numRouters then some .tooFewPhysicalRouters
  else if numRouters < numTiles then some .tooManyPhysicalRouters
  else if numTiles = 0 then some .noPhysicalRouters
  else none

/-- `setup_noc` raises any validation error before `generate_noc` runs
(`generate_noc` is what creates the NoC routers and links); the model
construction is abstracted as `build`. -/
def setupNoc {α : Type} (numTiles numRouters : Nat) (build : Unit → α) : Except SetupNocError α :=
  match validateNocTileCounts numTiles numRouters with
  | some e => .error e
  | none => .ok (build ())

/-! ## Solution decoding (`sort_noc_links_in_chain_order`, `convert_vars_to_routes`) and solver-status dispatch (`noc_sat_route`) -/

/-- The `src_map` built by `sort_noc_links_in_chain_order`: for each link in
iteration order, store it under its source router (later insertions
overwrite earlier ones, as for `std::unordered_map::operator[]`). -/
def buildSrcMap (lsrc : Nat → Nat) (links : List Nat) : Nat → Option Nat :=
  links.foldl (fun m l => fun r => if r = lsrc l then some l else m r) (fun _ => none)

/-- Whether some selected link has sink router `r` (the `is_dst` map). -/
def isDstRouter (ldst : Nat → Nat) (links : List Nat) (r : Nat) : Bool :=
  links.any (fun l => ldst l == r)

/-- The chain-reconstruction loop of `sort_noc_links_in_chain_order`:
push the current link, then follow `src_map` at the current link's sink
router until no continuation exists.  The C++ `while (true)` loop is
embedded with a fuel bound on the number of follow-ups; on the acyclic
inputs the routine is specified for, a fuel of `links.length` is never
exhausted. -/
def chainFrom (srcMap : Nat → Option Nat) (ldst : Nat → Nat) : Nat → Nat → List Nat
  | 0, cur => [cur]
  | fuel + 1, cur =>
      cur :: (match srcMap (ldst cur) with
        | none => []
        | some nxt => chainFrom srcMap ldst fuel nxt)

/-- `sort_noc_links_in_chain_order`: empty input returns an empty route;
otherwise find the first link whose source router is not the sink router of
any selected link and follow the `src_map` chain from it.  (If no starting
link exists — only possible when the selected links form cycles — the C++
code dereferences the end iterator, which is undefined behaviour; the
embedding returns `[]` in that unreachable case.) -/
def sortNocLinksInChainOrder (lsrc ldst : Nat → Nat) (links : List Nat) : List Nat :=
  if links.isEmpty then []
  else
    match links.find? (fun l => !isDstRouter ldst links (lsrc l)) with
    | none => []
    | some start => chainFrom (buildSrcMap lsrc links) ldst links.length start

/-- `convert_vars_to_routes`: each flow's route is its set of activated
links put in chain order; `activeLinks` lists, per flow, the link ids whose
`flow_link` variable is true in the solver response. -/
def convertVarsToRoutes (lsrc ldst : Nat → Nat) (activeLinks : List (List Nat)) :
    List (List Nat) :=
  activeLinks.map (sortNocLinksInChainOrder lsrc ldst)

/-- The terminal statuses of `orsat::SolveCpModel`. -/
inductive CpSolverStatus where
  | unknown
  | modelInvalid
  | feasible
  | infeasible
  | optimal
deriving DecidableEq, Repr

/-- The result dispatch of `noc_sat_route`: when the response status is
`FEASIBLE` or `OPTIMAL` the decoded routes are returned, and on every other
terminal status the function falls through to `return {}` (an empty route
container) without raising.  The decoding input is abstracted as the
per-flow activated-link lists read from the response. -/
def nocSatRoute (status : CpSolverStatus) (lsrc ldst : Nat → Nat)
    (activeLinks : List (List Nat)) : List (List Nat) :=
  if status = .feasible ∨ status = .optimal then
    convertVarsToRoutes lsrc ldst activeLinks
  else []

/-- A canonical simple directed chain of links: consecutive links share a
router (each link's source router is the previous link's sink router). -/
inductive IsLinkChain (lsrc ldst : Nat → Nat) : List Nat → Prop
  | single (l : Nat) : IsLinkChain lsrc ldst [l]
  | cons (l l' : Nat) (rest : List Nat) (hadj : lsrc l' = ldst l)
      (htail : IsLinkChain lsrc ldst (l' :: rest)) : IsLinkChain lsrc ldst (l :: l' :: rest)

/-- The router sequence visited by a chain of links: the first link's
source router followed by every link's sink router. -/
def routerSeq (lsrc ldst : Nat → Nat) (chain : List Nat) : List Nat :=
  match chain with
  | [] => []
  | c :: _ => lsrc c :: chain.map ldst

/-- Last link of a nonempty chain. -/
def chainLast (c : Nat) (cs : List Nat) : Nat :=
  (c :: cs).getLast (List.cons_ne_nil c cs)

/-- The activated-link set `active` forms a single simple directed path
from router `s` to router `t`: some ordering of exactly those links is a
chain that starts at `s`, ends at `t` and visits no router twice. -/
def SingleSimplePathSet (lsrc ldst : Nat → Nat) (active : List Nat) (s t : Nat) : Prop :=
  ∃ c cs, active.Perm (c :: cs) ∧ IsLinkChain lsrc ldst (c :: cs) ∧
    (routerSeq lsrc ldst (c :: cs)).Nodup ∧ lsrc c = s ∧ ldst (chainLast c cs) = t

/-! ## Router-to-tile assignment (`create_noc_routers`) -/

/-- A physical NoC router tile discovered by
`identify_and_store_noc_router_tile_positions`: grid position and centroid. -/
structure NocRouterTilePos where
  gridX : Int
  gridY : Int
  centroidX : ℚ
  centroidY : ℚ
deriving DecidableEq, Repr

/-- A logical router from the architecture description: user id and
declared reference position. -/
structure LogicalRouterDef where
  id : Int
  posX : ℚ
  posY : ℚ
deriving DecidableEq, Repr

/-- Squared Euclidean distance between a logical router's declared position
and a tile centroid.  The C++ code compares
`sqrt(pow(|dx|,2) + pow(|dy|,2))` values with `vtr::isclose` and `<`;
since `sqrt` is strictly monotone on nonnegative reals, comparing the
squared distances is equivalent, and exactly equal distances (the case the
specification concerns) satisfy `vtr::isclose`, which is therefore
modelled as exact equality on `ℚ`. -/
def tileDist (lr : LogicalRouterDef) (t : NocRouterTilePos) : ℚ :=
  (t.centroidX - lr.posX) ^ 2 + (t.centroidY - lr.posY) ^ 2

/-- Squared distance from logical router `lr` to the `i`-th discovered tile. -/
def tileDistAt (lr : LogicalRouterDef) (tiles : List NocRouterTilePos) (i : Nat) : ℚ :=
  tileDist lr (tiles.getD i ⟨0, 0, 0, 0⟩)

/-- Loop state of the closest-tile search in `create_noc_routers`:
`shortest_distance` (initialised to `LLONG_MAX`, modelled as `none` — no
squared tile distance reaches that magnitude), `closest_physical_router`,
and the two tie-tracking indices, which start as
`INVALID_PHYSICAL_ROUTER_INDEX` (modelled as `none`). -/
structure SearchSt where
  shortest : Option ℚ
  closest : Nat
  err1 : Option Nat
  err2 : Option Nat
deriving DecidableEq, Repr

/-- One iteration of the closest-tile loop: if the current distance equals
(`vtr::isclose`) the shortest seen, record the tie indices; otherwise if it
is strictly smaller, update the shortest distance and closest index. -/
def searchStep (st : SearchSt) (idx : Nat) (d : ℚ) : SearchSt :=
  match st.shortest with
  | none => { st with shortest := some d, closest := idx }
  | some m =>
      if d = m then { st with err1 := some st.closest, err2 := some idx }
      else if d < m then { st with shortest := some d, closest := idx }
      else st

/-- Run the closest-tile loop over `count` tiles starting at index `idx`. -/
def searchFrom (dist : Nat → ℚ) : Nat → Nat → SearchSt → SearchSt
  | 0, _, st => st
  | count + 1, idx, st => searchFrom dist count (idx + 1) (searchStep st idx (dist idx))

/-- The full closest-tile search over tiles `0, …, n-1` from the initial state. -/
def runSearch (dist : Nat → ℚ) (n : Nat) : SearchSt :=
  searchFrom dist n 0 ⟨none, 0, none, none⟩

/-- The fatal error raised inside `create_noc_routers` when two physical
router tiles are at the same distance to a logical router; it reports the
logical router's id and the grid positions of the two tied tiles. -/
inductive RouterCreationError where
  | ambiguousTie (logicalId : Int) (pos1 pos2 : Int × Int)
deriving DecidableEq, Repr

/-- The assignment of one logical router in `create_noc_routers`: run the
closest-tile search, raise the tie error when the recorded tie partner is
the final closest tile (`error_case_physical_router_index_1 ==
closest_physical_router`), and otherwise assign the closest tile's grid
position (`add_router`).  (The separate duplicate-assignment error
compares against assignments made for earlier logical routers and is not
part of the tie property.) -/
def createNocRouterFor (lr : LogicalRouterDef) (tiles : List NocRouterTilePos) :
    Except RouterCreationError (Int × Int) :=
  let st := runSearch (tileDistAt lr tiles) tiles.length
  let closestTile := tiles.getD st.closest ⟨0, 0, 0, 0⟩
  match st.err1 with
  | some v =>
      if v = st.closest then
        let otherTile := tiles.getD (st.err2.getD 0) ⟨0, 0, 0, 0⟩
        .error (.ambiguousTie lr.id (closestTile.gridX, closestTile.gridY)
          (otherTile.gridX, otherTile.gridY))
      else .ok (closestTile.gridX, closestTile.gridY)
  | none => .ok (closestTile.gridX, closestTile.gridY)

/-- Minimum of `dist 0, …, dist (k-1)` (for `k ≥ 1`; `minBelow dist 0` is
a junk value equal to `dist 0`). -/
def minBelow (dist : Nat → ℚ) : Nat → ℚ
  | 0 => dist 0
  | k + 1 => min (minBelow dist k) (dist k)

/-- Two distinct tiles among the first `k` attain the minimal distance. -/
def MultiMin (dist : Nat → ℚ) (k : Nat) : Prop :=
  ∃ i j, i < k ∧ j < k ∧ i ≠ j ∧ dist i = minBelow dist k ∧ dist j = minBelow dist k

/-! ## Helper lemmas -/

/-- The created overrun variables are exactly the latency-constrained flows
(`max_traffic_flow_latency < 0.1`), each with the domain `(0, 20)`. -/
theorem createFlowLinkVars_snd (flows : List TrafficFlowE) (linkIds : List Nat) :
    (createFlowLinkVars flows linkIds).2 =
      (flows.filter (fun f => decide (f.maxLatency < 1/10))).map
        (fun f => (f.flowId, latencyOverrunDomain)) := by
  unfold createFlowLinkVars
  suffices h : ∀ (fs : List TrafficFlowE) (acc : List (Nat × Nat) × List (Nat × (Int × Int))),
      (fs.foldl
        (fun acc f =>
          ((if f.maxLatency < 1/10 then
              (acc.1, acc.2 ++ [(f.flowId, latencyOverrunDomain)])
            else acc).1 ++ linkIds.map (fun lid => (f.flowId, lid)),
           (if f.maxLatency < 1/10 then
              (acc.1, acc.2 ++ [(f.flowId, latencyOverrunDomain)])
            else acc).2))
        acc).2 =
      acc.2 ++ (fs.filter (fun f => decide (f.maxLatency < 1/10))).map
        (fun f => (f.flowId, latencyOverrunDomain)) by
    simpa using h flows ([], [])
  intro fs
  induction fs with
  | nil => intro acc; simp
  | cons f fs ih =>
      intro acc
      simp only [List.foldl_cons, List.filter_cons]
      by_cases hf : f.maxLatency < 1/10
      · simp only [if_pos hf, decide_eq_true hf, List.map_cons]
        rw [ih, List.append_assoc]
        simp
      · simp only [if_neg hf, decide_eq_false hf]
        rw [ih]
        simp

/-- Sums of `Term(var, coeff)` agree when every item contributes the same term. -/
theorem weightedTermSum_congr {α : Type} (coeff : α → Int) (items : List α)
    (act act' : α → Bool)
    (h : ∀ x ∈ items, coeff x * (if act x then 1 else 0) = coeff x * (if act' x then 1 else 0)) :
    weightedTermSum coeff items act = weightedTermSum coeff items act' := by
  unfold weightedTermSum
  suffices hgen : ∀ (l : List α) (init : Int),
      (∀ x ∈ l, coeff x * (if act x then 1 else 0) = coeff x * (if act' x then 1 else 0)) →
      (l.foldl (fun acc x => acc + coeff x * (if act x then 1 else 0)) init) =
      (l.foldl (fun acc x => acc + coeff x * (if act' x then 1 else 0)) init) by
    exact hgen items 0 h
  intro l
  induction l with
  | nil => intro init _; rfl
  | cons x xs ih =>
      intro init hall
      simp only [List.foldl_cons]
      rw [hall x (List.mem_cons_self x xs)]
      exact ih _ (fun y hy => hall y (List.mem_cons_of_mem x hy))

/-- Bucket lists produced by `group_noc_links_based_on_direction` are the
filters of the link list by the four endpoint-coordinate conditions. -/
theorem groupNocLinks_eq_filters (posX posY : Nat → Int) (links : List NocLinkE) :
    groupNocLinksBasedOnDirection posX posY links =
      ((links.filter (fun l => decide (posX l.sourceRouter = posX l.sinkRouter) &&
          decide (posY l.sourceRouter < posY l.sinkRouter))).map (fun l => l.linkId),
       (links.filter (fun l => decide (posX l.sourceRouter = posX l.sinkRouter) &&
          !decide (posY l.sourceRouter < posY l.sinkRouter))).map (fun l => l.linkId),
       (links.filter (fun l => !decide (posX l.sourceRouter = posX l.sinkRouter) &&
          decide (posX l.sourceRouter < posX l.sinkRouter))).map (fun l => l.linkId),
       (links.filter (fun l => !decide (posX l.sourceRouter = posX l.sinkRouter) &&
          !decide (posX l.sourceRouter < posX l.sinkRouter))).map (fun l => l.linkId)) := by
  unfold groupNocLinksBasedOnDirection
  suffices hgen : ∀ (ls : List NocLinkE) (up down right left : List Nat),
      (ls.foldl
        (fun acc l =>
          let (up, down, right, left) := acc
          if posX l.sourceRouter = posX l.sinkRouter then
            if posY l.sourceRouter < posY l.sinkRouter then (up ++ [l.linkId], down, right, left)
            else (up, down ++ [l.linkId], right, left)
          else
            if posX l.sourceRouter < posX l.sinkRouter then (up, down, right ++ [l.linkId], left)
            else (up, down, right, left ++ [l.linkId]))
        (up, down, right, left)) =
      (up ++ (ls.filter (fun l => decide (posX l.sourceRouter = posX l.sinkRouter) &&
          decide (posY l.sourceRouter < posY l.sinkRouter))).map (fun l => l.linkId),
       down ++ (ls.filter (fun l => decide (posX l.sourceRouter = posX l.sinkRouter) &&
          !decide (posY l.sourceRouter < posY l.sinkRouter))).map (fun l => l.linkId),
       right ++ (ls.filter (fun l => !decide (posX l.sourceRouter = posX l.sinkRouter) &&
          decide (posX l.sourceRouter < posX l.sinkRouter))).map (fun l => l.linkId),
       left ++ (ls.filter (fun l => !decide (posX l.sourceRouter = posX l.sinkRouter) &&
          !decide (posX l.sourceRouter < posX l.sinkRouter))).map (fun l => l.linkId)) by
    simpa using hgen links [] [] [] []
  intro ls
  induction ls with
  | nil => intro up down right left; simp
  | cons x xs ih =>
      intro up down right left
      simp only [List.foldl_cons, List.filter_cons]
      by_cases h1 : posX x.sourceRouter = posX x.sinkRouter
      · by_cases h2 : posY x.sourceRouter < posY x.sinkRouter
        · simp [h1, h2, ih, List.append_assoc]
        · simp [h1, h2, ih, List.append_assoc]
      · by_cases h3 : posX x.sourceRouter < posX x.sinkRouter
        · simp [h1, h3, ih, List.append_assoc]
        · simp [h1, h3, ih, List.append_assoc]

/-! ## Claim theorems -/

/-- C2: for every NoC link, `congested[l]` is true iff the sum over all
traffic flows of (rescaled flow bandwidth × `flow_link[f,l]`) strictly
exceeds the bandwidth resolution; the encoding is the pair of
one-directional `OnlyEnforceIf` implications of
`create_congested_link_vars`, and an assignment satisfies that pair exactly
when the boolean matches the strict comparison. -/
theorem congested_link_var_reified (bwOf : Nat → ℚ) (linkBandwidth : ℚ)
    (bandwidthResolution : Int) (flows : List Nat) (act : Nat → Bool) (congested : Bool) :
    congestedLinkVarSat
      (weightedTermSum
        (fun f => rescaleTrafficFlowBandwidth (bwOf f) linkBandwidth bandwidthResolution)
        flows act)
      bandwidthResolution congested ↔
    (congested = true ↔ bandwidthResolution <
      weightedTermSum
        (fun f => rescaleTrafficFlowBandwidth (bwOf f) linkBandwidth bandwidthResolution)
        flows act) := by
  unfold congestedLinkVarSat
  cases congested
  · simp
  · simp

/-- C3: an assignment satisfies the two distance constraints of
`add_distance_constraints` for a flow iff the number of activated
right-bucket links minus the number of activated left-bucket links equals
the compressed-grid x-delta between destination and source router, and
symmetrically for up/down and the y-delta; the buckets are exactly the
filters of the link list by the endpoint-coordinate conditions of
`group_noc_links_based_on_direction`. -/
theorem distance_constraints_characterization (posX posY compX compY : Nat → Int)
    (links : List NocLinkE) (srcRouter dstRouter : Nat) (act : Nat → Bool) :
    (∀ c ∈ addDistanceConstraints posX posY compX compY links srcRouter dstRouter,
      constraintHolds act c) ↔
    ((countTrue act ((links.filter (fun l => !decide (posX l.sourceRouter = posX l.sinkRouter) &&
          decide (posX l.sourceRouter < posX l.sinkRouter))).map (fun l => l.linkId)) : Int) -
      (countTrue act ((links.filter (fun l => !decide (posX l.sourceRouter = posX l.sinkRouter) &&
          !decide (posX l.sourceRouter < posX l.sinkRouter))).map (fun l => l.linkId)) : Int) =
        compX dstRouter - compX srcRouter ∧
     (countTrue act ((links.filter (fun l => decide (posX l.sourceRouter = posX l.sinkRouter) &&
          decide (posY l.sourceRouter < posY l.sinkRouter))).map (fun l => l.linkId)) : Int) -
      (countTrue act ((links.filter (fun l => decide (posX l.sourceRouter = posX l.sinkRouter) &&
          !decide (posY l.sourceRouter < posY l.sinkRouter))).map (fun l => l.linkId)) : Int) =
        compY dstRouter - compY srcRouter) := by
  unfold addDistanceConstraints
  rw [groupNocLinks_eq_filters]
  simp [constraintHolds]

/-- C4: for a latency-constrained flow, the maximum permissible number of
traversed links is `⌊(latency_bound - router_latency) / (link_latency +
router_latency)⌋`, and every assignment satisfying the `AddMaxEquality`
constraint of `constrain_latency_overrun_vars` gives the overrun variable
the value `max 0 (activated_link_count - max_permissible)`; in particular
activating exactly `max_permissible` links forces overrun 0, and activating
`max_permissible + k` links forces overrun `k`. -/
theorem latency_overrun_relu (maxLatency nocLinkLatency nocRouterLatency : ℚ)
    (allLinkIds : List Nat) (act : Nat → Bool) (overrunValue : Int)
    (hsat : latencyOverrunVarSat act allLinkIds
      (compMaxNumberOfTraversedLinks maxLatency nocLinkLatency nocRouterLatency) overrunValue) :
    compMaxNumberOfTraversedLinks maxLatency nocLinkLatency nocRouterLatency =
      ⌊(maxLatency - nocRouterLatency) / (nocLinkLatency + nocRouterLatency)⌋ ∧
    overrunValue = max 0 ((countTrue act allLinkIds : Int) -
      compMaxNumberOfTraversedLinks maxLatency nocLinkLatency nocRouterLatency) ∧
    ((countTrue act allLinkIds : Int) =
        compMaxNumberOfTraversedLinks maxLatency nocLinkLatency nocRouterLatency →
      overrunValue = 0) ∧
    (∀ k : Nat, (countTrue act allLinkIds : Int) =
        compMaxNumberOfTraversedLinks maxLatency nocLinkLatency nocRouterLatency + k →
      overrunValue = k) := by
  unfold latencyOverrunVarSat at hsat
  refine ⟨rfl, ?_, ?_, ?_⟩
  · rw [hsat, max_comm]
  · intro h; rw [hsat, h]; simp
  · intro k h; rw [hsat, h]; simp

/-- C5: `create_flow_link_vars` creates a latency-overrun variable for a
flow iff the flow's declared maximum latency is strictly below 0.1, always
with integer domain `[0, 20]`, and the precondition asserted by
`comp_max_number_of_traversed_links` is that same condition. -/
theorem latency_overrun_var_creation_iff (flows : List TrafficFlowE) (linkIds : List Nat)
    (fid : Nat) (dom : Int × Int) :
    ((fid, dom) ∈ (createFlowLinkVars flows linkIds).2 ↔
      ∃ f ∈ flows, f.flowId = fid ∧ f.maxLatency < 1/10 ∧ dom = (0, 20)) ∧
    (∀ q : ℚ, compMaxTraversedLinksAssert q ↔ q < 1/10) := by
  constructor
  · rw [createFlowLinkVars_snd]
    simp only [List.mem_map, List.mem_filter, latencyOverrunDomain, decide_eq_true_eq,
      Prod.mk.injEq]
    constructor
    · rintro ⟨f, ⟨hmem, hlat⟩, hfid, hdom⟩
      exact ⟨f, hmem, hfid, hlat, hdom.symm⟩
    · rintro ⟨f, hmem, hfid, hlat, hdom⟩
      exact ⟨f, ⟨hmem, hlat⟩, hfid, hdom.symm⟩
  · intro q; exact Iff.rfl

/-- Witness for `latency_overrun_relu`: a flow whose latency bound allows
`⌊(1/20 - 1/100) / (1/100 + 1/100)⌋ = 2` links, activating both of its 2
links, forces overrun value 0. -/
theorem latency_overrun_relu_witness :
    compMaxNumberOfTraversedLinks (1/20) (1/100) (1/100) =
      ⌊((1/20 : ℚ) - 1/100) / (1/100 + 1/100)⌋ ∧
    (0 : Int) = max 0 ((countTrue (fun _ => true) [0, 1] : Int) -
      compMaxNumberOfTraversedLinks (1/20) (1/100) (1/100)) ∧
    (0 : Int) = 0 :=
  have h : latencyOverrunVarSat (fun _ => true) [0, 1]
      (compMaxNumberOfTraversedLinks (1/20) (1/100) (1/100)) 0 := by
    unfold latencyOverrunVarSat compMaxNumberOfTraversedLinks countTrue
    norm_num
  ⟨(latency_overrun_relu (1/20) (1/100) (1/100) [0, 1] (fun _ => true) 0 h).1,
   (latency_overrun_relu (1/20) (1/100) (1/100) [0, 1] (fun _ => true) 0 h).2.1,
   (latency_overrun_relu (1/20) (1/100) (1/100) [0, 1] (fun _ => true) 0 h).2.2.1 (by
      unfold compMaxNumberOfTraversedLinks countTrue
      norm_num)⟩

/-- C7 counterexample: with zero discovered physical router tiles and one
declared logical router, `setup_noc` raises the "more routers than
available" (too-few-tiles) error, not the distinct "no physical NoC routers
were found" error: the `== 0` check is only reached when the `<` and `>`
checks both fail, i.e. when both counts are zero. -/
theorem zero_tiles_error_shape_cex :
    validateNocTileCounts 0 1 = some SetupNocError.tooFewPhysicalRouters ∧
    SetupNocError.tooFewPhysicalRouters ≠ SetupNocError.noPhysicalRouters ∧
    validateNocTileCounts 0 0 = some SetupNocError.noPhysicalRouters := by
  refine ⟨rfl, ?_, rfl⟩
  decide

/-- C7 (amended): the tile-count validation of `setup_noc` raises the
too-few-tiles error exactly when fewer tiles than declared routers were
discovered (including zero tiles with a nonempty router list), the
too-many-tiles error exactly when more tiles were discovered, and the
distinct no-physical-routers error exactly when both counts are zero;
validation passes iff the counts are equal and nonzero, and any raised
validation error aborts `setup_noc` before the NoC model (routers and
links) is generated. -/
theorem tile_count_validation_characterization (numTiles numRouters : Nat)
    (build : Unit → NocModelE) :
    (validateNocTileCounts numTiles numRouters = none ↔
      numTiles = numRouters ∧ numTiles ≠ 0) ∧
    (validateNocTileCounts numTiles numRouters = some .tooFewPhysicalRouters ↔
      numTiles < numRouters) ∧
    (validateNocTileCounts numTiles numRouters = some .tooManyPhysicalRouters ↔
      numRouters < numTiles) ∧
    (validateNocTileCounts numTiles numRouters = some .noPhysicalRouters ↔
      numTiles = 0 ∧ numRouters = 0) ∧
    (∀ e, setupNoc numTiles numRouters build = .error e ↔
      validateNocTileCounts numTiles numRouters = some e) := by
  unfold setupNoc validateNocTileCounts
  split_ifs with h1 h2 h3 <;> simp_all <;> omega

/-- C8: `noc_sat_route` returns the decoded per-flow routes exactly on the
accepted solver statuses `OPTIMAL` and `FEASIBLE`; on every other terminal
status it returns the empty route container (a value, not an exception). -/
theorem noc_sat_route_status_dispatch (status : CpSolverStatus) (lsrc ldst : Nat → Nat)
    (activeLinks : List (List Nat)) :
    (status = .optimal ∨ status = .feasible →
      nocSatRoute status lsrc ldst activeLinks = convertVarsToRoutes lsrc ldst activeLinks) ∧
    (status ≠ .optimal → status ≠ .feasible →
      nocSatRoute status lsrc ldst activeLinks = []) := by
  unfold nocSatRoute
  constructor
  · rintro (rfl | rfl) <;> simp
  · intro h1 h2
    rw [if_neg]
    rintro (rfl | rfl) <;> simp_all

/-- Witness for `noc_sat_route_status_dispatch` at the statuses `OPTIMAL`
and `INFEASIBLE`. -/
theorem noc_sat_route_status_dispatch_witness :
    nocSatRoute .optimal (fun n => n) (fun n => n + 1) [[5]] =
      convertVarsToRoutes (fun n => n) (fun n => n + 1) [[5]] ∧
    nocSatRoute .infeasible (fun n => n) (fun n => n + 1) [[5]] = [] :=
  ⟨(noc_sat_route_status_dispatch .optimal (fun n => n) (fun n => n + 1) [[5]]).1 (Or.inl rfl),
   (noc_sat_route_status_dispatch .infeasible (fun n => n) (fun n => n + 1) [[5]]).2
     (by decide) (by decide)⟩

/-- C10: the rescaled bandwidth of a flow is
`⌊(flow_bandwidth / link_bandwidth) · bandwidth_resolution⌋`; a flow whose
bandwidth demand is strictly below `link_bandwidth / bandwidth_resolution`
rescales to exactly 0, and a zero-coefficient flow leaves every
`Term`-sum (each link's congestion expression and the aggregate-bandwidth
objective) unchanged whatever its `flow_link` variables are. -/
theorem rescaled_bandwidth_floor_zero (bandwidth linkBandwidth : ℚ) (res : Int)
    (hbw : 0 ≤ bandwidth) (hlink : 0 < linkBandwidth) (hres : 0 < res)
    (hsmall : bandwidth < linkBandwidth / (res : ℚ)) :
    rescaleTrafficFlowBandwidth bandwidth linkBandwidth res =
      ⌊bandwidth / linkBandwidth * (res : ℚ)⌋ ∧
    rescaleTrafficFlowBandwidth bandwidth linkBandwidth res = 0 ∧
    (∀ (flows : List Nat) (coeff : Nat → Int) (f : Nat) (act act' : Nat → Bool),
      coeff f = rescaleTrafficFlowBandwidth bandwidth linkBandwidth res →
      (∀ g, g ≠ f → act g = act' g) →
      weightedTermSum coeff flows act = weightedTermSum coeff flows act') := by
  have hresq : (0 : ℚ) < (res : ℚ) := by exact_mod_cast hres
  have hzero : rescaleTrafficFlowBandwidth bandwidth linkBandwidth res = 0 := by
    unfold rescaleTrafficFlowBandwidth
    rw [Int.floor_eq_zero_iff]
    constructor
    · positivity
    · have h1 : bandwidth * (res : ℚ) < linkBandwidth := by
        rw [lt_div_iff₀ hresq] at hsmall
        exact hsmall
      have h2 : bandwidth / linkBandwidth * (res : ℚ) = bandwidth * (res : ℚ) / linkBandwidth := by
        ring
      rw [h2, div_lt_one hlink]
      exact h1
  refine ⟨rfl, hzero, ?_⟩
  intro flows coeff f act act' hcoeff hagree
  apply weightedTermSum_congr
  intro x _
  by_cases hx : x = f
  · subst hx
    rw [hcoeff, hzero]
    simp
  · rw [hagree x hx]

/-- Witness for `rescaled_bandwidth_floor_zero`: bandwidth 1/100 against
link bandwidth 1 at resolution 10 (so the threshold is 1/10) rescales to 0. -/
theorem rescaled_bandwidth_floor_zero_witness :
    rescaleTrafficFlowBandwidth (1/100) 1 10 = 0 ∧
    weightedTermSum (fun g => if g = 0 then rescaleTrafficFlowBandwidth (1/100) 1 10 else 5)
        [0, 1] (fun _ => true) =
      weightedTermSum (fun g => if g = 0 then rescaleTrafficFlowBandwidth (1/100) 1 10 else 5)
        [0, 1] (fun g => !(g == 0)) :=
  ⟨(rescaled_bandwidth_floor_zero (1/100) 1 10 (by norm_num) (by norm_num) (by norm_num)
      (by norm_num)).2.1,
   (rescaled_bandwidth_floor_zero (1/100) 1 10 (by norm_num) (by norm_num) (by norm_num)
      (by norm_num)).2.2 [0, 1] (fun g => if g = 0 then rescaleTrafficFlowBandwidth (1/100) 1 10 else 5)
      0 (fun _ => true) (fun g => !(g == 0)) (by simp)
      (by intro g hg; simp [hg])⟩

/-- C1 (amended): an assignment satisfies all constraints generated by
`add_continuity_constraints` for a flow iff it meets exactly the listed
cardinality conditions — exactly one activated outgoing link at the source
router, exactly one activated incoming link at the sink router, and at
every other router at most one incoming, at most one outgoing, and equal
incoming/outgoing activated counts.  (These conditions do NOT force the
activated-link set to be a single simple directed path; see
`continuity_cycle_cex`.) -/
theorem continuity_constraints_iff_cardinalities (m : NocModelE) (srcRouter sinkRouter : Nat)
    (act : Nat → Bool) :
    (∀ c ∈ addContinuityConstraints m srcRouter sinkRouter, constraintHolds act c) ↔
      ContinuityCardinalities m srcRouter sinkRouter act := by
  unfold addContinuityConstraints ContinuityCardinalities
  constructor
  · intro h
    refine ⟨h (.exactlyOne (outgoingLinkIds m srcRouter)) (by simp),
      h (.exactlyOne (incomingLinkIds m sinkRouter)) (by simp), ?_⟩
    intro r hr hrs hrt
    have hmem : r ∈ m.routers.filter (fun r => !(r == srcRouter || r == sinkRouter)) := by
      simp [List.mem_filter, hr, hrs, hrt]
    refine ⟨h (.atMostOne (incomingLinkIds m r)) ?_, h (.atMostOne (outgoingLinkIds m r)) ?_,
      h (.eqSum (incomingLinkIds m r) (outgoingLinkIds m r)) ?_⟩
    all_goals
      simp only [List.mem_append, List.mem_flatMap]
      right
      exact ⟨r, hmem, by simp⟩
  · rintro ⟨hsrc, hsink, hothers⟩ c hc
    simp only [List.mem_append, List.mem_cons, List.not_mem_nil, or_false,
      List.mem_flatMap, List.mem_filter, Bool.not_eq_true', Bool.or_eq_false_iff,
      beq_eq_false_iff_ne] at hc
    rcases hc with (rfl | rfl) | ⟨r, ⟨hr, hrs, hrt⟩, hcr⟩
    · exact hsrc
    · exact hsink
    · obtain ⟨h1, h2, h3⟩ := hothers r hr hrs hrt
      rcases hcr with rfl | rfl | rfl
      · exact h1
      · exact h2
      · exact h3

/-- The two-router NoC used to refute the single-simple-path claim:
routers 0 and 1, link 0 : 0→1 and link 1 : 1→0. -/
def cexContinuityModel : NocModelE := ⟨[0, 1], [⟨0, 0, 1⟩, ⟨1, 1, 0⟩]⟩

/-- C1 counterexample: for a flow from router 0 to router 1 on
`cexContinuityModel`, the assignment activating BOTH links (the directed
2-cycle 0→1→0) satisfies every constraint generated by
`add_continuity_constraints` — the source's incoming links and the sink's
outgoing links are unconstrained — yet the activated-link set {0→1, 1→0}
is not a single simple directed path from 0 to 1 (following the activated
links from the source revisits router 0 instead of terminating at the
sink). -/
theorem continuity_cycle_cex :
    (∀ c ∈ addContinuityConstraints cexContinuityModel 0 1,
      constraintHolds (fun _ => true) c) ∧
    ¬ SingleSimplePathSet (modelLsrc cexContinuityModel) (modelLdst cexContinuityModel)
        [0, 1] 0 1 := by
  constructor
  · decide
  · rintro ⟨c, cs, hperm, hchain, hnodup, hs, ht⟩
    have hlen : cs.length = 1 := by
      have h := hperm.length_eq
      simp at h
      omega
    match cs, hlen with
    | [c2], _ =>
      have hc : c = 0 ∨ c = 1 := by
        have h := hperm.symm.subset (List.mem_cons_self c [c2])
        simpa using h
      have hc2 : c2 = 0 ∨ c2 = 1 := by
        have h := hperm.symm.subset (by simp : c2 ∈ c :: [c2])
        simpa using h
      rcases hc with rfl | rfl <;> rcases hc2 with rfl | rfl
      · exact absurd hperm (by decide)
      · exact absurd hnodup (by decide)
      · exact absurd hnodup (by decide)
      · exact absurd hperm (by decide)

/-! ## Chain-order reconstruction lemmas -/

/-- Folding link insertions never changes entries whose router key is not a
source of any inserted link. -/
theorem srcMapFold_eq_of_not_mem (lsrc : Nat → Nat) :
    ∀ (links : List Nat) (m0 : Nat → Option Nat) (r : Nat), r ∉ links.map lsrc →
      (links.foldl (fun m l => fun r => if r = lsrc l then some l else m r) m0) r = m0 r := by
  intro links
  induction links with
  | nil => intro m0 r _; rfl
  | cons x xs ih =>
      intro m0 r hr
      simp only [List.map_cons, List.mem_cons] at hr
      push_neg at hr
      simp only [List.foldl_cons]
      rw [ih _ r hr.2]
      simp [hr.1]

/-- With pairwise-distinct source routers, the `src_map` lookup at a link's
source router returns that link. -/
theorem srcMapFold_eq_of_mem (lsrc : Nat → Nat) :
    ∀ (links : List Nat) (m0 : Nat → Option Nat) (l : Nat),
      (links.map lsrc).Nodup → l ∈ links →
      (links.foldl (fun m l => fun r => if r = lsrc l then some l else m r) m0) (lsrc l) = some l := by
  intro links
  induction links with
  | nil => intro m0 l _ h; exact absurd h (List.not_mem_nil l)
  | cons x xs ih =>
      intro m0 l hnd hl
      simp only [List.map_cons, List.nodup_cons] at hnd
      simp only [List.foldl_cons]
      rcases List.mem_cons.mp hl with rfl | hl'
      · rw [srcMapFold_eq_of_not_mem lsrc xs _ _ hnd.1]
        simp
      · exact ih _ l hnd.2 hl'

/-- `buildSrcMap` returns `none` at routers that are not any link's source. -/
theorem buildSrcMap_none (lsrc : Nat → Nat) (links : List Nat) (r : Nat)
    (h : r ∉ links.map lsrc) : buildSrcMap lsrc links r = none :=
  srcMapFold_eq_of_not_mem lsrc links _ r h

/-- `buildSrcMap` finds the unique link with a given source router. -/
theorem buildSrcMap_some (lsrc : Nat → Nat) (links : List Nat) (l : Nat)
    (hnd : (links.map lsrc).Nodup) (hl : l ∈ links) :
    buildSrcMap lsrc links (lsrc l) = some l :=
  srcMapFold_eq_of_mem lsrc links _ l hnd hl

/-- `find?` returns the unique element satisfying the predicate. -/
theorem find?_eq_of_unique {p : Nat → Bool} :
    ∀ (links : List Nat) (x : Nat), x ∈ links → p x = true →
      (∀ y ∈ links, p y = true → y = x) → links.find? p = some x := by
  intro links
  induction links with
  | nil => intro x h; exact absurd h (List.not_mem_nil x)
  | cons a as ih =>
      intro x hx hpx huniq
      by_cases hpa : p a = true
      · rw [List.find?_cons_of_pos _ hpa]
        rw [huniq a (List.mem_cons_self a as) hpa]
      · rw [List.find?_cons_of_neg _ (by simpa using hpa)]
        rcases List.mem_cons.mp hx with rfl | hx'
        · exact absurd hpx hpa
        · exact ih x hx' hpx (fun y hy hpy => huniq y (List.mem_cons_of_mem a hy) hpy)

/-- `chainLast` of a singleton. -/
theorem chainLast_nil (c : Nat) : chainLast c [] = c := rfl

/-- `chainLast` steps down a cons. -/
theorem chainLast_cons (c c2 : Nat) (cs : List Nat) :
    chainLast c (c2 :: cs) = chainLast c2 cs := by
  simp [chainLast, List.getLast_cons]

/-- Membership characterization of the `is_dst` map. -/
theorem isDstRouter_iff (ldst : Nat → Nat) (links : List Nat) (r : Nat) :
    isDstRouter ldst links r = true ↔ r ∈ links.map ldst := by
  simp only [isDstRouter, List.any_eq_true, List.mem_map, beq_iff_eq]

/-- Every link after the first in a chain has its source router among the
chain's sink routers. -/
theorem isLinkChain_src_mem (lsrc ldst : Nat → Nat) :
    ∀ (cs : List Nat) (c : Nat), IsLinkChain lsrc ldst (c :: cs) →
      ∀ l ∈ cs, lsrc l ∈ (c :: cs).map ldst := by
  intro cs
  induction cs with
  | nil => intro c _ l hl; exact absurd hl (List.not_mem_nil l)
  | cons c2 cs2 ih =>
      intro c hchain l hl
      cases hchain with
      | cons _ _ _ hadj htail =>
          rcases List.mem_cons.mp hl with rfl | hl'
          · rw [hadj]
            simp
          · have h := ih c2 htail l hl'
            simp only [List.map_cons, List.mem_cons] at h ⊢
            tauto

/-- Under chain adjacency, the link sources are the visited-router sequence
without its final router. -/
theorem isLinkChain_map_src (lsrc ldst : Nat → Nat) :
    ∀ (cs : List Nat) (c : Nat), IsLinkChain lsrc ldst (c :: cs) →
      (c :: cs).map lsrc = (routerSeq lsrc ldst (c :: cs)).dropLast := by
  intro cs
  induction cs with
  | nil => intro c _; simp [routerSeq]
  | cons c2 cs2 ih =>
      intro c hchain
      cases hchain with
      | cons _ _ _ hadj htail =>
          have h2 := ih c2 htail
          simp only [routerSeq, List.map_cons] at h2 ⊢
          rw [List.dropLast_cons₂, ← hadj, ← h2]

/-- The last entry of the visited-router sequence is the last link's sink. -/
theorem routerSeq_getLast? (lsrc ldst : Nat → Nat) :
    ∀ (cs : List Nat) (c : Nat),
      (routerSeq lsrc ldst (c :: cs)).getLast? = some (ldst (chainLast c cs)) := by
  intro cs
  induction cs with
  | nil => intro c; simp [routerSeq, chainLast]
  | cons c2 cs2 ih =>
      intro c
      have h2 := ih c2
      simp only [routerSeq, List.map_cons] at h2 ⊢
      rw [chainLast_cons]
      rw [List.getLast?_cons_cons] at h2
      rw [List.getLast?_cons_cons, List.getLast?_cons_cons]
      exact h2

/-- The chain-following loop reproduces the chain: starting from the first
link of a chain whose links all belong to `links`, whose sources are
pairwise distinct, and whose final sink router is no link's source, the
loop emits exactly the chain (given fuel at least the chain's tail length). -/
theorem chainFrom_eq (lsrc ldst : Nat → Nat) (links : List Nat)
    (hnds : (links.map lsrc).Nodup) :
    ∀ (cs : List Nat) (c : Nat), IsLinkChain lsrc ldst (c :: cs) →
      (∀ l ∈ c :: cs, l ∈ links) →
      ldst (chainLast c cs) ∉ links.map lsrc →
      ∀ fuel, cs.length ≤ fuel →
      chainFrom (buildSrcMap lsrc links) ldst fuel c = c :: cs := by
  intro cs
  induction cs with
  | nil =>
      intro c _ _ hlast fuel _
      have hnone : buildSrcMap lsrc links (ldst c) = none := by
        apply buildSrcMap_none
        simpa [chainLast] using hlast
      cases fuel with
      | zero => rfl
      | succ f => simp [chainFrom, hnone]
  | cons c2 cs2 ih =>
      intro c hchain hmem hlast fuel hfuel
      cases hchain with
      | cons _ _ _ hadj htail =>
          cases fuel with
          | zero => simp at hfuel
          | succ f =>
              have hsome : buildSrcMap lsrc links (ldst c) = some c2 := by
                rw [← hadj]
                exact buildSrcMap_some lsrc links c2 hnds
                  (hmem c2 (List.mem_cons_of_mem c (List.mem_cons_self c2 cs2)))
              have hih := ih c2 htail
                (fun l hl => hmem l (List.mem_cons_of_mem c hl))
                (by rwa [chainLast_cons] at hlast)
                f (by simpa using hfuel)
              simp [chainFrom, hsome, hih]

/-- C9: on a non-empty activated-link set that forms a single simple
directed path (some ordering `c :: cs` of the set is a chain visiting no
router twice), `sort_noc_links_in_chain_order` returns exactly that chain:
it starts from the unique link whose source router is not the sink router
of any selected link, each subsequent link's source router equals the
previous link's sink router, and the reconstructed route length equals the
activated-link count, so the `VTR_ASSERT` in the decoder holds. -/
theorem sort_noc_links_reconstructs_path (lsrc ldst : Nat → Nat) (links : List Nat)
    (c : Nat) (cs : List Nat)
    (hperm : links.Perm (c :: cs))
    (hchain : IsLinkChain lsrc ldst (c :: cs))
    (hnodup : (routerSeq lsrc ldst (c :: cs)).Nodup) :
    sortNocLinksInChainOrder lsrc ldst links = c :: cs ∧
    (sortNocLinksInChainOrder lsrc ldst links).length = links.length := by
  have hlen : links.length = cs.length + 1 := by simpa using hperm.length_eq
  have hne : links ≠ [] := by
    intro h
    rw [h] at hlen
    simp at hlen
  have hmapsrc : (c :: cs).map lsrc = (routerSeq lsrc ldst (c :: cs)).dropLast :=
    isLinkChain_map_src lsrc ldst cs c hchain
  have hndchainsrc : ((c :: cs).map lsrc).Nodup := by
    rw [hmapsrc]
    exact List.Sublist.nodup (List.dropLast_sublist _) hnodup
  have hndsrc : (links.map lsrc).Nodup := ((hperm.map lsrc).nodup_iff).mpr hndchainsrc
  have hlast : ldst (chainLast c cs) ∉ links.map lsrc := by
    intro hmem
    have hmem2 : ldst (chainLast c cs) ∈ (c :: cs).map lsrc :=
      ((hperm.map lsrc).mem_iff).mp hmem
    rw [hmapsrc] at hmem2
    have hrsne : routerSeq lsrc ldst (c :: cs) ≠ [] := by simp [routerSeq]
    have hgl : (routerSeq lsrc ldst (c :: cs)).getLast hrsne = ldst (chainLast c cs) := by
      have h := routerSeq_getLast? lsrc ldst cs c
      rw [List.getLast?_eq_getLast_of_ne_nil hrsne] at h
      exact Option.some.inj h
    have hsplit := List.dropLast_append_getLast hrsne
    rw [← hsplit] at hnodup
    have hdisj := (List.nodup_append.mp hnodup).2.2
    exact hdisj hmem2 (by rw [hgl]; exact List.mem_singleton.mpr rfl)
  have hheadnotin : lsrc c ∉ (c :: cs).map ldst := by
    have h := hnodup
    simp only [routerSeq] at h
    exact (List.nodup_cons.mp h).1
  have hpc : (!isDstRouter ldst links (lsrc c)) = true := by
    have h : ¬ (isDstRouter ldst links (lsrc c) = true) := by
      rw [isDstRouter_iff]
      intro hmem
      exact hheadnotin (((hperm.map ldst).mem_iff).mp hmem)
    simpa using h
  have huniq : ∀ y ∈ links, (!isDstRouter ldst links (lsrc y)) = true → y = c := by
    intro y hy hpy
    have hy2 : y ∈ c :: cs := hperm.subset hy
    rcases List.mem_cons.mp hy2 with rfl | hy3
    · rfl
    · exfalso
      have hsrcmem : lsrc y ∈ (c :: cs).map ldst :=
        isLinkChain_src_mem lsrc ldst cs c hchain y hy3
      have hdst : isDstRouter ldst links (lsrc y) = true := by
        rw [isDstRouter_iff]
        exact ((hperm.map ldst).mem_iff).mpr hsrcmem
      simp [hdst] at hpy
  have hfind : links.find? (fun l => !isDstRouter ldst links (lsrc l)) = some c :=
    find?_eq_of_unique links c (hperm.symm.subset (List.mem_cons_self c cs)) hpc huniq
  have hsort : sortNocLinksInChainOrder lsrc ldst links = c :: cs := by
    unfold sortNocLinksInChainOrder
    rw [if_neg (by simpa [List.isEmpty_iff] using hne)]
    rw [hfind]
    exact chainFrom_eq lsrc ldst links hndsrc cs c hchain
      (fun l hl => hperm.symm.subset hl) hlast links.length (by omega)
  refine ⟨hsort, ?_⟩
  rw [hsort, hlen]
  simp

/-- The source-router map of the concrete 3-link chain used as witness:
link 10 : 0→1, link 11 : 1→2, link 12 : 2→3. -/
def cexChainLsrc : Nat → Nat := fun l => if l = 10 then 0 else if l = 11 then 1 else 2

/-- The sink-router map of the concrete 3-link chain used as witness. -/
def cexChainLdst : Nat → Nat := fun l => if l = 10 then 1 else if l = 11 then 2 else 3

/-- Witness for `sort_noc_links_reconstructs_path`: the activated set
{10, 11, 12} presented in the order [12, 10, 11] is decoded into the chain
[10, 11, 12] of length 3. -/
theorem sort_noc_links_reconstructs_path_witness :
    sortNocLinksInChainOrder cexChainLsrc cexChainLdst [12, 10, 11] = [10, 11, 12] ∧
    (sortNocLinksInChainOrder cexChainLsrc cexChainLdst [12, 10, 11]).length =
      ([12, 10, 11] : List Nat).length :=
  sort_noc_links_reconstructs_path cexChainLsrc cexChainLdst [12, 10, 11] 10 [11, 12]
    (by decide)
    (IsLinkChain.cons 10 11 [12] (by decide)
      (IsLinkChain.cons 11 12 [] (by decide) (IsLinkChain.single 12)))
    (by decide)

/-! ## Closest-tile search invariant -/

/-- `minBelow dist k` bounds every distance with index below `k`. -/
theorem minBelow_le (dist : Nat → ℚ) : ∀ (k i : Nat), i < k → minBelow dist k ≤ dist i := by
  intro k
  induction k with
  | zero => intro i hi; exact absurd hi (Nat.not_lt_zero i)
  | succ k ih =>
      intro i hi
      rcases Nat.lt_succ_iff_lt_or_eq.mp hi with hi' | rfl
      · calc minBelow dist (k + 1) ≤ minBelow dist k := min_le_left _ _
          _ ≤ dist i := ih i hi'
      · exact min_le_right _ _

/-- Lifting a minimal-distance tie to a longer prefix with the same minimum. -/
theorem multiMin_succ_of_multiMin (dist : Nat → ℚ) (k : Nat) (h : MultiMin dist k)
    (hmb : minBelow dist (k + 1) = minBelow dist k) : MultiMin dist (k + 1) := by
  obtain ⟨i, j, hi, hj, hij, hdi, hdj⟩ := h
  exact ⟨i, j, Nat.lt_succ_of_lt hi, Nat.lt_succ_of_lt hj, hij,
    by rw [hmb]; exact hdi, by rw [hmb]; exact hdj⟩

/-- The invariant maintained by the closest-tile loop of
`create_noc_routers` after processing tiles `0, …, k-1` (`k ≥ 1`):
the shortest distance and closest index are the prefix minimum and an index
attaining it; the tie-tracking index `err1` equals the current closest
index exactly when the prefix minimum is attained twice, in which case
`err2` records a second, distinct minimal index. -/
structure SearchInv (dist : Nat → ℚ) (k : Nat) (st : SearchSt) : Prop where
  short_eq : st.shortest = some (minBelow dist k)
  closest_lt : st.closest < k
  closest_dist : dist st.closest = minBelow dist k
  multi_err : MultiMin dist k →
    st.err1 = some st.closest ∧
    ∃ j, st.err2 = some j ∧ j < k ∧ j ≠ st.closest ∧ dist j = minBelow dist k
  err1_dist : ∀ v, st.err1 = some v →
    v < k ∧ (dist v = minBelow dist k → MultiMin dist k ∧ v = st.closest)

/-- One loop iteration preserves the search invariant. -/
theorem searchStep_inv (dist : Nat → ℚ) (k : Nat) (st : SearchSt)
    (hinv : SearchInv dist k st) :
    SearchInv dist (k + 1) (searchStep st k (dist k)) := by
  have hmb : minBelow dist (k + 1) = min (minBelow dist k) (dist k) := rfl
  have hstep : searchStep st k (dist k) =
      if dist k = minBelow dist k then { st with err1 := some st.closest, err2 := some k }
      else if dist k < minBelow dist k then { st with shortest := some (dist k), closest := k }
      else st := by
    unfold searchStep
    rw [hinv.short_eq]
  rw [hstep]
  by_cases heq : dist k = minBelow dist k
  · rw [if_pos heq]
    have hmb2 : minBelow dist (k + 1) = minBelow dist k := by
      rw [hmb, heq, min_self]
    have hmulti : MultiMin dist (k + 1) :=
      ⟨st.closest, k, Nat.lt_succ_of_lt hinv.closest_lt, Nat.lt_succ_self k,
        Nat.ne_of_lt hinv.closest_lt,
        by rw [hmb2]; exact hinv.closest_dist,
        by rw [hmb2]; exact heq⟩
    refine ⟨?_, ?_, ?_, ?_, ?_⟩
    · rw [hmb2]; exact hinv.short_eq
    · exact Nat.lt_succ_of_lt hinv.closest_lt
    · rw [hmb2]; exact hinv.closest_dist
    · intro _
      exact ⟨rfl, k, rfl, Nat.lt_succ_self k, Nat.ne_of_gt hinv.closest_lt,
        by rw [hmb2]; exact heq⟩
    · intro v hv
      have hvc : v = st.closest := by
        have h2 : some st.closest = some v := hv
        exact (Option.some.inj h2).symm
      subst hvc
      exact ⟨Nat.lt_succ_of_lt hinv.closest_lt, fun _ => ⟨hmulti, rfl⟩⟩
  · rw [if_neg heq]
    by_cases hlt : dist k < minBelow dist k
    · rw [if_pos hlt]
      have hmb2 : minBelow dist (k + 1) = dist k := by
        rw [hmb]
        exact min_eq_right (le_of_lt hlt)
      have hnomulti : ¬ MultiMin dist (k + 1) := by
        rintro ⟨i, j, hi, hj, hij, hdi, hdj⟩
        rw [hmb2] at hdi hdj
        have hik : i = k := by
          by_contra hik
          have hi2 : i < k := by omega
          have hle := minBelow_le dist k i hi2
          rw [hdi] at hle
          linarith
        have hjk : j = k := by
          by_contra hjk
          have hj2 : j < k := by omega
          have hle := minBelow_le dist k j hj2
          rw [hdj] at hle
          linarith
        exact hij (hik.trans hjk.symm)
      refine ⟨?_, Nat.lt_succ_self k, ?_, fun h => absurd h hnomulti, ?_⟩
      · rw [hmb2]
      · rw [hmb2]
      · intro v hv
        obtain ⟨hvk, hvd⟩ := hinv.err1_dist v hv
        refine ⟨Nat.lt_succ_of_lt hvk, ?_⟩
        intro hveq
        exfalso
        have hle := minBelow_le dist k v hvk
        rw [hveq, hmb2] at hle
        linarith
    · rw [if_neg hlt]
      have hge : minBelow dist k < dist k :=
        lt_of_le_of_ne (le_of_not_lt hlt) (fun h2 => heq h2.symm)
      have hmb2 : minBelow dist (k + 1) = minBelow dist k := by
        rw [hmb]
        exact min_eq_left (le_of_lt hge)
      have hmback : MultiMin dist (k + 1) → MultiMin dist k := by
        rintro ⟨i, j, hi, hj, hij, hdi, hdj⟩
        rw [hmb2] at hdi hdj
        have hik : i < k := by
          rcases Nat.lt_succ_iff_lt_or_eq.mp hi with h | rfl
          · exact h
          · rw [hdi] at hge; exact absurd hge (lt_irrefl _)
        have hjk : j < k := by
          rcases Nat.lt_succ_iff_lt_or_eq.mp hj with h | rfl
          · exact h
          · rw [hdj] at hge; exact absurd hge (lt_irrefl _)
        exact ⟨i, j, hik, hjk, hij, hdi, hdj⟩
      refine ⟨?_, Nat.lt_succ_of_lt hinv.closest_lt, ?_, ?_, ?_⟩
      · rw [hmb2]; exact hinv.short_eq
      · rw [hmb2]; exact hinv.closest_dist
      · intro hm
        obtain ⟨h1, j, h2, h3, h4, h5⟩ := hinv.multi_err (hmback hm)
        exact ⟨h1, j, h2, Nat.lt_succ_of_lt h3, h4, by rw [hmb2]; exact h5⟩
      · intro v hv
        obtain ⟨hvk, hvd⟩ := hinv.err1_dist v hv
        refine ⟨Nat.lt_succ_of_lt hvk, ?_⟩
        intro hveq
        rw [hmb2] at hveq
        obtain ⟨hmk, hvc⟩ := hvd hveq
        exact ⟨multiMin_succ_of_multiMin dist k hmk hmb2, hvc⟩

/-- The remaining iterations preserve the search invariant. -/
theorem searchFrom_inv (dist : Nat → ℚ) :
    ∀ (count idx : Nat) (st : SearchSt), SearchInv dist idx st →
      SearchInv dist (idx + count) (searchFrom dist count idx st) := by
  intro count
  induction count with
  | zero => intro idx st h; exact h
  | succ n ih =>
      intro idx st h
      have h2 := ih (idx + 1) (searchStep st idx (dist idx)) (searchStep_inv dist idx st h)
      have harith : idx + 1 + n = idx + (n + 1) := by omega
      rw [harith] at h2
      exact h2

/-- After the whole loop the invariant holds for the full tile list. -/
theorem runSearch_inv (dist : Nat → ℚ) (n : Nat) (hn : 1 ≤ n) :
    SearchInv dist n (runSearch dist n) := by
  obtain ⟨m, rfl⟩ : ∃ m, n = m + 1 := ⟨n - 1, by omega⟩
  have hbase : SearchInv dist 1 (searchStep ⟨none, 0, none, none⟩ 0 (dist 0)) := by
    refine ⟨?_, Nat.zero_lt_one, ?_, ?_, ?_⟩
    · show some (dist 0) = some (minBelow dist 1)
      simp [minBelow]
    · show dist 0 = minBelow dist 1
      simp [minBelow]
    · rintro ⟨i, j, hi, hj, hij, -, -⟩
      omega
    · intro v hv
      exact absurd hv (by simp [searchStep])
  have h := searchFrom_inv dist m 1 _ hbase
  have heq : searchFrom dist m 1 (searchStep ⟨none, 0, none, none⟩ 0 (dist 0)) =
      runSearch dist (m + 1) := rfl
  rw [heq] at h
  have harith : 1 + m = m + 1 := by omega
  rw [harith] at h
  exact h

/-- C6: if two distinct physical router tiles are at exactly equal minimal
distance from a logical router's declared reference position, router
creation raises the fatal error that reports the logical router's id and
the grid positions of two distinct tiles at that minimal distance, and no
assignment is made for that router (the result is an error, never an
assigned position). -/
theorem equal_min_distance_tie_error (lr : LogicalRouterDef) (tiles : List NocRouterTilePos)
    (hne : tiles ≠ [])
    (htie : MultiMin (tileDistAt lr tiles) tiles.length) :
    ∃ i j, i < tiles.length ∧ j < tiles.length ∧ i ≠ j ∧
      tileDistAt lr tiles i = minBelow (tileDistAt lr tiles) tiles.length ∧
      tileDistAt lr tiles j = minBelow (tileDistAt lr tiles) tiles.length ∧
      createNocRouterFor lr tiles = Except.error (RouterCreationError.ambiguousTie lr.id
        ((tiles.getD i ⟨0, 0, 0, 0⟩).gridX, (tiles.getD i ⟨0, 0, 0, 0⟩).gridY)
        ((tiles.getD j ⟨0, 0, 0, 0⟩).gridX, (tiles.getD j ⟨0, 0, 0, 0⟩).gridY)) := by
  have hn : 1 ≤ tiles.length := List.length_pos.mpr hne
  have hinv := runSearch_inv (tileDistAt lr tiles) tiles.length hn
  obtain ⟨herr1, j, herr2, hjlt, hjne, hjd⟩ := hinv.multi_err htie
  refine ⟨(runSearch (tileDistAt lr tiles) tiles.length).closest, j,
    hinv.closest_lt, hjlt, Ne.symm hjne, hinv.closest_dist, hjd, ?_⟩
  unfold createNocRouterFor
  simp [herr1, herr2]

/-- The logical router used in the `equal_min_distance_tie_error` witness:
id 5, declared reference position (1, 0). -/
def cexTieRouter : LogicalRouterDef := ⟨5, 1, 0⟩

/-- The tied tiles used in the `equal_min_distance_tie_error` witness:
grid positions (0,0) and (2,0), centroids at distance 1 on either side of
the router's reference position. -/
def cexTieTiles : List NocRouterTilePos := [⟨0, 0, 0, 0⟩, ⟨2, 0, 2, 0⟩]

/-- Both witness tiles are at squared distance 1 from the logical router. -/
theorem cexTieTiles_dist0 : tileDistAt cexTieRouter cexTieTiles 0 = 1 := by
  norm_num [tileDistAt, tileDist, cexTieRouter, cexTieTiles]

/-- Both witness tiles are at squared distance 1 from the logical router. -/
theorem cexTieTiles_dist1 : tileDistAt cexTieRouter cexTieTiles 1 = 1 := by
  norm_num [tileDistAt, tileDist, cexTieRouter, cexTieTiles]

/-- The minimal witness-tile distance is 1. -/
theorem cexTieTiles_minBelow : minBelow (tileDistAt cexTieRouter cexTieTiles) 2 = 1 := by
  have h0 := cexTieTiles_dist0
  have h1 := cexTieTiles_dist1
  simp [minBelow, h0, h1]

/-- The two witness tiles tie at the minimal distance. -/
theorem cexTieTiles_multiMin :
    MultiMin (tileDistAt cexTieRouter cexTieTiles) cexTieTiles.length := by
  refine ⟨0, 1, by norm_num [cexTieTiles], by norm_num [cexTieTiles], by norm_num, ?_, ?_⟩
  · show tileDistAt cexTieRouter cexTieTiles 0 =
      minBelow (tileDistAt cexTieRouter cexTieTiles) 2
    rw [cexTieTiles_dist0, cexTieTiles_minBelow]
  · show tileDistAt cexTieRouter cexTieTiles 1 =
      minBelow (tileDistAt cexTieRouter cexTieTiles) 2
    rw [cexTieTiles_dist1, cexTieTiles_minBelow]

/-- Witness for `equal_min_distance_tie_error`: both tiles of
`cexTieTiles` are at squared distance 1 from `cexTieRouter`, so creation
fails with the ambiguity error. -/
theorem equal_min_distance_tie_error_witness :
    ∃ i j, i < cexTieTiles.length ∧ j < cexTieTiles.length ∧ i ≠ j ∧
      tileDistAt cexTieRouter cexTieTiles i =
        minBelow (tileDistAt cexTieRouter cexTieTiles) cexTieTiles.length ∧
      tileDistAt cexTieRouter cexTieTiles j =
        minBelow (tileDistAt cexTieRouter cexTieTiles) cexTieTiles.length ∧
      createNocRouterFor cexTieRouter cexTieTiles =
        Except.error (RouterCreationError.ambiguousTie cexTieRouter.id
          ((cexTieTiles.getD i ⟨0, 0, 0, 0⟩).gridX, (cexTieTiles.getD i ⟨0, 0, 0, 0⟩).gridY)
          ((cexTieTiles.getD j ⟨0, 0, 0, 0⟩).gridX, (cexTieTiles.getD j ⟨0, 0, 0, 0⟩).gridY)) :=
  equal_min_distance_tie_error cexTieRouter cexTieTiles (List.cons_ne_nil _ _)
    cexTieTiles_multiMin
